import Mathlib

/-
Verification of the IP-to-location range-lookup table implemented in
src/src/ip_dict/ipToFullLocation.py (class IpFullLocation).

The source is Python 2 (it uses backtick-repr in the loader's error message).
Python strings are modelled as lists of characters, Python ints as Int/Nat,
and the two exception classes that escape the component (ValueError, standing
for InvalidAddress, and KeyError, standing for NotFound) as an error type.
Float objects are modelled by the text they were parsed from, since the
program never computes with them: it only converts and returns them.
-/

namespace IpFullLocation

/-- Python string, modelled as its list of characters. -/
abbrev PyStr := List Char

/-- The exception kinds that the component can raise: ValueError is the
spec's InvalidAddress, KeyError is the spec's NotFound; IndexError can in
principle escape from an empty-bucket subscript. -/
inductive PyErr where
  | valueError
  | keyError
  | indexError
deriving DecidableEq, Repr

/-- ASCII whitespace recognised by Python's str.strip() (space, tab,
newline, carriage return, vertical tab, form feed). -/
def isWS (c : Char) : Bool :=
  c.toNat = 32 ∨ c.toNat = 9 ∨ c.toNat = 10 ∨ c.toNat = 13 ∨ c.toNat = 11 ∨ c.toNat = 12

/-- Decimal digit test on a character. -/
def isDigitC (c : Char) : Bool := 48 ≤ c.toNat ∧ c.toNat ≤ 57

/-- Numeric value of a digit character. -/
def digitVal (c : Char) : Nat := c.toNat - 48

/-- Value of a digit string read most-significant first. -/
def digitsVal (ds : PyStr) : Nat := ds.foldl (fun acc c => acc * 10 + digitVal c) 0

/-- Strip leading and trailing characters satisfying p, as Python
str.strip does. -/
def stripBy (p : Char → Bool) (s : PyStr) : PyStr :=
  ((s.dropWhile p).reverse.dropWhile p).reverse

/-- Python str.strip() with no argument: strip whitespace. -/
def stripWS (s : PyStr) : PyStr := stripBy isWS s

/-- Python s.strip('"'): strip double-quote characters from both ends. -/
def pyStripQuotes (s : PyStr) : PyStr := stripBy (fun c => c = '"') s

/-- Python int(s) on a string: optional surrounding whitespace, optional
sign, then a nonempty run of decimal digits; anything else raises
ValueError (modelled as none). -/
def pyInt (s : PyStr) : Option Int :=
  match stripWS s with
  | [] => none
  | c :: rest =>
    if c = '+' then
      if rest ≠ [] ∧ rest.all isDigitC then some ((digitsVal rest : Nat) : Int) else none
    else if c = '-' then
      if rest ≠ [] ∧ rest.all isDigitC then some (-((digitsVal rest : Nat) : Int)) else none
    else
      if (c :: rest).all isDigitC then some ((digitsVal (c :: rest) : Nat) : Int) else none

/-- Digit character for a value below ten. -/
def digitChar (d : Nat) : Char :=
  match d with
  | 0 => '0' | 1 => '1' | 2 => '2' | 3 => '3' | 4 => '4'
  | 5 => '5' | 6 => '6' | 7 => '7' | 8 => '8' | _ => '9'

/-- Decimal representation of a natural number; the first argument is
fuel (any bound above the number itself suffices), so that the kernel
can evaluate it. -/
def natReprAux : Nat → Nat → PyStr
  | 0, _ => []
  | fuel + 1, n => if n < 10 then [digitChar n] else natReprAux fuel (n / 10) ++ [digitChar (n % 10)]

/-- Decimal representation of a natural number, as Python str(n). -/
def natRepr (n : Nat) : PyStr := natReprAux (n + 1) n

/-- Python str(i) for an int. -/
def intRepr (i : Int) : PyStr :=
  if i < 0 then '-' :: natRepr i.natAbs else natRepr i.toNat

/-- Python s.zfill(w): left-pad with zeros to width w, keeping a leading
sign in front of the padding. -/
def pyZfill (s : PyStr) (w : Nat) : PyStr :=
  if w ≤ s.length then s
  else
    match s with
    | [] => List.replicate w '0'
    | c :: rest =>
      if c = '+' ∨ c = '-' then c :: (List.replicate (w - s.length) '0' ++ rest)
      else List.replicate (w - s.length) '0' ++ (c :: rest)

/-- Python s.split(sep) for a one-character separator: splits at every
occurrence, keeping empty pieces. -/
def pySplit (sep : Char) : PyStr → List PyStr
  | [] => [[]]
  | c :: rest =>
    let r := pySplit sep rest
    if c = sep then [] :: r else (c :: r.headI) :: r.tail

/-- Lower-case an ASCII letter. -/
def lowerC (c : Char) : Char :=
  if 65 ≤ c.toNat ∧ c.toNat ≤ 90 then Char.ofNat (c.toNat + 32) else c

/-- Exponent part of Python's float grammar: empty, or e/E followed by an
optional sign and a nonempty digit run. -/
def expOk : PyStr → Bool
  | [] => true
  | c :: r =>
    if c = 'e' ∨ c = 'E' then
      match r with
      | [] => false
      | c2 :: r2 =>
        if c2 = '+' ∨ c2 = '-' then r2 ≠ [] ∧ r2.all isDigitC
        else r ≠ [] ∧ r.all isDigitC
    else false

/-- Body of Python's float grammar after sign removal: digits with an
optional fractional part (at least one digit overall), or a bare
fraction, followed by an optional exponent; or inf/infinity/nan. -/
def floatBody (u : PyStr) : Bool :=
  if u.map lowerC = ('i' :: 'n' :: 'f' :: [])
      ∨ u.map lowerC = ('i' :: 'n' :: 'f' :: 'i' :: 'n' :: 'i' :: 't' :: 'y' :: [])
      ∨ u.map lowerC = ('n' :: 'a' :: 'n' :: []) then true
  else
    let ip := u.takeWhile isDigitC
    let r1 := u.dropWhile isDigitC
    match r1 with
    | '.' :: r2 =>
      let fp := r2.takeWhile isDigitC
      let r3 := r2.dropWhile isDigitC
      if ip = [] ∧ fp = [] then false else expOk r3
    | _ => if ip = [] then false else expOk r1

/-- Python float(s) viability: whether float conversion of the string
succeeds (a failure raises ValueError). -/
def floatOk (s : PyStr) : Bool :=
  match stripWS s with
  | [] => false
  | c :: rest =>
    if c = '+' ∨ c = '-' then floatBody rest else floatBody (c :: rest)

/-- One row of the range table, as stored by the loader: the append in
__init__ keeps startIp/endIp as ints, the string columns stripped of
surrounding double quotes, and lat/lon as the floats parsed from the raw
(unstripped) latitude/longitude fields, modelled here by those fields'
text. -/
structure RangeRec where
  startIp : Int
  endIp : Int
  twoLetter : PyStr
  country : PyStr
  state : PyStr
  city : PyStr
  lat : PyStr
  lon : PyStr
  zipcode : PyStr
  timezone : PyStr
  countryPhone : PyStr
  areaPhone : PyStr
deriving DecidableEq, Repr

/-- Key of the Python dict self.ipDict: the constructor seeds it with the
int key 0, and every loaded row uses a 4-character string key, so the key
type is the disjoint union of the two (an int and a string are never equal
as Python dict keys). -/
inductive DKey where
  | intKey (n : Int)
  | strKey (s : PyStr)
deriving DecidableEq, Repr

/-- The bucket index self.ipDict, as an association list with Python dict
semantics (at most one entry per key). -/
abbrev IpDict := List (DKey × List RangeRec)

/-- Python d[k] as a read: the value at the key, if present. -/
def dictFind (d : IpDict) (k : DKey) : Option (List RangeRec) :=
  match d with
  | [] => none
  | (k', v) :: rest => if k' = k then some v else dictFind rest k

/-- Python d[k] = v: overwrite the entry if the key is present, otherwise
add one. -/
def dictSet (d : IpDict) (k : DKey) (v : List RangeRec) : IpDict :=
  match d with
  | [] => [(k, v)]
  | (k', v') :: rest => if k' = k then (k, v) :: rest else (k', v') :: dictSet rest k v

/-- The ten fields lookupIP returns on success. -/
abbrev LookupResult :=
  PyStr × PyStr × PyStr × PyStr × PyStr × PyStr × PyStr × PyStr × PyStr × PyStr

/-- The tuple lookupIP builds from a matching record (source lines
193-203). -/
def resultOf (r : RangeRec) : LookupResult :=
  (r.twoLetter, r.country, r.state, r.city, r.lat, r.lon,
   r.zipcode, r.timezone, r.countryPhone, r.areaPhone)

/-- ipStrToIntAndKey (source lines 215-231): split on dots; anything but
exactly four pieces returns (None, None); each piece goes through int(),
whose failure raises ValueError (uncaught in the source); on success the
ip number and the first four characters of its zero-padded 10-digit
decimal form are returned. -/
def ipStrToIntAndKey (ipStr : PyStr) : Except PyErr (Option (Int × PyStr)) :=
  match pySplit '.' ipStr with
  | [oct0, oct1, oct2, oct3] =>
    match pyInt oct0, pyInt oct1, pyInt oct2, pyInt oct3 with
    | some a, some b, some c, some d =>
      let ipNum : Int := d + c * 256 + b * 256 * 256 + a * 256 * 256 * 256
      Except.ok (some (ipNum, (pyZfill (intRepr ipNum) 10).take 4))
    | _, _, _, _ => Except.error PyErr.valueError
  | _ => Except.ok none

/-- The for-loop over the selected bucket (source lines 188-206): skip
records whose end bound is below the query, return the first whose end
bound is not, and raise KeyError when the bucket is exhausted. -/
def scanChain (ipNum : Int) : List RangeRec → Except PyErr LookupResult
  | [] => Except.error PyErr.keyError
  | r :: rest =>
    if r.endIp < ipNum then scanChain ipNum rest else Except.ok (resultOf r)

/-- The key decrement of the backtracking loop (source line 186):
str(int(lookupKey) - 1).zfill(4)[0:4]. -/
def decKey (k : Int) : PyStr := (pyZfill (intRepr (k - 1)) 4).take 4

/-- The while-loop of lookupIP (source lines 174-187) together with the
bucket scan it falls through to. The loop condition in the source is
lookupKey greater than 0 with lookupKey a string: in Python 2 a str
compares greater than any int, so the condition is always true and the
loop can only leave through its break; the fuel argument makes the
recursion total, with none meaning the loop has not finished within the
given number of iterations (i.e. it diverges, as no iteration count is
ever enough). A bucket read of a missing key raises KeyError, which the
handler turns into the key decrement; subscripting an empty bucket would
raise IndexError (buckets built by the loader are never empty). -/
def backtrack (d : IpDict) (ipNum : Int) : PyStr → Nat → Option (Except PyErr LookupResult)
  | _, 0 => none
  | key, fuel + 1 =>
    match dictFind d (DKey.strKey key) with
    | some [] => some (Except.error PyErr.indexError)
    | some (c0 :: cr) =>
      if ipNum < c0.startIp then
        match pyInt key with
        | some k => backtrack d ipNum (decKey k) fuel
        | none => some (Except.error PyErr.valueError)
      else some (scanChain ipNum (c0 :: cr))
    | none =>
      match pyInt key with
      | some k => backtrack d ipNum (decKey k) fuel
      | none => some (Except.error PyErr.valueError)

/-- lookupIP (source lines 159-206): parse the address, raising
ValueError when the parse yields (None, None) or when an octet fails int
conversion, then run the backtracking bucket search and bucket scan.
The result is none when the backtracking loop never finishes. -/
def lookupIP (d : IpDict) (fuel : Nat) (ipStr : PyStr) :
    Option (Except PyErr LookupResult) :=
  match ipStrToIntAndKey ipStr with
  | Except.error e => some (Except.error e)
  | Except.ok none => some (Except.error PyErr.valueError)
  | Except.ok (some (ipNum, key)) => backtrack d ipNum key fuel

/-- get (source lines 129-146): call lookupIP, catching only KeyError and
returning the caller-supplied default in that case; other exceptions
(ValueError, IndexError) propagate. The default may be any Python value,
so the result is the sum of the default's type and the lookup tuple. -/
def get (d : IpDict) (fuel : Nat) (ipStr : PyStr) (default : α) :
    Option (Except PyErr (α ⊕ LookupResult)) :=
  match lookupIP d fuel ipStr with
  | none => none
  | some (Except.ok r) => some (Except.ok (Sum.inr r))
  | some (Except.error PyErr.keyError) => some (Except.ok (Sum.inl default))
  | some (Except.error e) => some (Except.error e)

/-- The country-code side table self.twoLetterKeyedDict: two-letter code
to (code, country, state, city). -/
abbrev TLDict := List (PyStr × (PyStr × PyStr × PyStr × PyStr))

/-- Python assignment into the side table: overwrite or add. -/
def tlSet (d : TLDict) (k : PyStr) (v : PyStr × PyStr × PyStr × PyStr) : TLDict :=
  match d with
  | [] => [(k, v)]
  | (k', v') :: rest => if k' = k then (k, v) :: rest else (k', v') :: tlSet rest k v

/-- The loader's mutable state during __init__: currKey, self.ipDict and
self.twoLetterKeyedDict. -/
structure LoadState where
  currKey : DKey
  ipDict : IpDict
  tl : TLDict
deriving Repr

/-- The state just before the read loop (source lines 84-86): currKey is
the int 0 and ipDict maps it to an empty list. -/
def initState : LoadState := ⟨DKey.intKey 0, [(DKey.intKey 0, [])], []⟩

/-- The tuple unpacking of a CSV row into twelve variables (source lines
95-96); fewer or more fields raise ValueError, which the source catches
and turns into a skipped row. -/
def fields12 (line : List PyStr) :
    Option (PyStr × PyStr × PyStr × PyStr × PyStr × PyStr × PyStr × PyStr ×
            PyStr × PyStr × PyStr × PyStr) :=
  match line with
  | [s0, s1, s2, s3, s4, s5, s6, s7, s8, s9, s10, s11] =>
    some (s0, s1, s2, s3, s4, s5, s6, s7, s8, s9, s10, s11)
  | _ => none

/-- The skip test of source line 92: empty row, first field equal to the
one-character string containing a hash mark, or first field equal to the
string 0. (The comparison of the row with a newline string in the source
compares a list against a string and is always false in Python 2, so it
is omitted.) The input is a row as produced by csv.reader, i.e. a list of
already-unquoted fields. -/
def skipRow (line : List PyStr) : Prop :=
  line = [] ∨ line.head? = some ['#'] ∨ line.head? = some ['0']

instance (line : List PyStr) : Decidable (skipRow line) := by
  unfold skipRow; infer_instance

/-- The record built by the append of source lines 105-118. -/
def mkRec (s2 s3 s4 s5 s6 s7 s8 s9 s10 s11 : PyStr) (si ei : Int) : RangeRec :=
  ⟨si, ei, pyStripQuotes s2, pyStripQuotes s3, pyStripQuotes s4, pyStripQuotes s5,
   s6, s7, pyStripQuotes s8, pyStripQuotes s9, pyStripQuotes s10, pyStripQuotes s11⟩

/-- The hash key of source line 101: first four characters of the
quote-stripped start field left-padded with zeros to ten characters. -/
def hashKeyOf (s0 : PyStr) : PyStr := (pyZfill (pyStripQuotes s0) 10).take 4

/-- The bucket reset of source lines 102-104: when the row's hash key
differs from currKey, ipDict gets a fresh empty list at that key and
currKey moves to it; otherwise the state is unchanged. -/
def st1Of (st : LoadState) (hk : DKey) : LoadState :=
  if hk ≠ st.currKey then ⟨hk, dictSet st.ipDict hk [], st.tl⟩ else st

/-- The body of one read-loop iteration after a successful tuple unpack
(source lines 100-123): hash key, bucket reset, then the append, whose
argument evaluation runs int() on the two range bounds and float() on the
two coordinates — these conversions are outside the try block, so their
ValueError aborts the whole load; reading the bucket to append raises
KeyError if it were missing (it never is in states reachable from
initState); finally the side-table update. -/
def loadFields (st : LoadState)
    (s0 s1 s2 s3 s4 s5 s6 s7 s8 s9 s10 s11 : PyStr) : Except PyErr LoadState :=
  let hk := DKey.strKey (hashKeyOf s0)
  let st1 := st1Of st hk
  match dictFind st1.ipDict hk with
  | none => Except.error PyErr.keyError
  | some bucket =>
    match pyInt (pyStripQuotes s0), pyInt (pyStripQuotes s1), floatOk s6, floatOk s7 with
    | some si, some ei, true, true =>
      Except.ok ⟨st1.currKey,
        dictSet st1.ipDict hk (bucket ++ [mkRec s2 s3 s4 s5 s6 s7 s8 s9 s10 s11 si ei]),
        tlSet st1.tl (pyStripQuotes s2)
          (pyStripQuotes s2, pyStripQuotes s3, pyStripQuotes s4, pyStripQuotes s5)⟩
    | _, _, _, _ => Except.error PyErr.valueError

/-- One iteration of the loader's read loop (source lines 91-123):
skip test; tuple unpack with ValueError caught (row skipped); then the
keyed append of loadFields. -/
def loadRow (st : LoadState) (line : List PyStr) : Except PyErr LoadState :=
  if skipRow line then Except.ok st
  else
    match fields12 line with
    | none => Except.ok st
    | some (s0, s1, s2, s3, s4, s5, s6, s7, s8, s9, s10, s11) =>
      loadFields st s0 s1 s2 s3 s4 s5 s6 s7 s8 s9 s10 s11

/-- The loader's read loop over all rows of the file, aborting at the
first uncaught exception. -/
def loadRows (st : LoadState) : List (List PyStr) → Except PyErr LoadState
  | [] => Except.ok st
  | line :: rest =>
    match loadRow st line with
    | Except.ok st' => loadRows st' rest
    | Except.error e => Except.error e

/-- Building the table from a list of csv rows, as __init__ does. -/
def load (rows : List (List PyStr)) : Except PyErr LoadState :=
  loadRows initState rows

/-- What the loader decides to do with one row, as a pure function of the
row: skip it (skip test hit, or tuple unpack failed), keep it with a hash
key and a record, or abort the load (uncaught conversion ValueError). -/
inductive RowAct where
  | skip
  | kept (hk : PyStr) (r : RangeRec)
  | abort
deriving DecidableEq, Repr

/-- Row classification mirroring the decision structure of loadRow; it is
state-independent because the only state-dependent failure of loadRow
(missing currKey bucket) cannot occur in states reachable from
initState. -/
def classifyRow (line : List PyStr) : RowAct :=
  if skipRow line then RowAct.skip
  else
    match fields12 line with
    | none => RowAct.skip
    | some (s0, s1, s2, s3, s4, s5, s6, s7, s8, s9, s10, s11) =>
      match pyInt (pyStripQuotes s0), pyInt (pyStripQuotes s1), floatOk s6, floatOk s7 with
      | some si, some ei, true, true =>
        RowAct.kept (hashKeyOf s0) (mkRec s2 s3 s4 s5 s6 s7 s8 s9 s10 s11 si ei)
      | _, _, _, _ => RowAct.abort

/-- The kept rows of the input, in order, as (hash key, record) pairs. -/
def keptList (rows : List (List PyStr)) : List (PyStr × RangeRec) :=
  rows.filterMap fun line =>
    match classifyRow line with
    | RowAct.kept hk r => some (hk, r)
    | _ => none

/-- The string key a loader state's currKey corresponds to, if any (the
initial int key corresponds to none). -/
def prevRep : DKey → Option PyStr
  | DKey.intKey _ => none
  | DKey.strKey s => some s

/-- Abstract per-key step of the loader over one kept row: tracks the key
of the previous kept row and the bucket contents for a fixed key k. A
kept row with key k starts the bucket afresh with its record when the
previous kept key differs, and appends otherwise; rows with other keys
leave the bucket alone. -/
def perKeyStep (k : PyStr) (s : Option PyStr × Option (List RangeRec))
    (p : PyStr × RangeRec) : Option PyStr × Option (List RangeRec) :=
  (some p.1,
   if p.1 = k then
     some ((if s.1 = some p.1 then s.2.getD [] else []) ++ [p.2])
   else s.2)

/-- Final bucket contents for key k predicted from the kept rows alone:
none when no kept row has key k, otherwise exactly the records of the
last contiguous run of kept rows whose key is k. -/
def lastRunBucket (k : PyStr) (seq : List (PyStr × RangeRec)) : Option (List RangeRec) :=
  (seq.foldl (perKeyStep k) (none, none)).2

/-- The invariant that the loader maintains: the bucket for currKey
exists. -/
def Inv (st : LoadState) : Prop := (dictFind st.ipDict st.currKey).isSome = true

theorem natReprAux_fuel (n : Nat) : ∀ f1 f2, n < f1 → n < f2 →
    natReprAux f1 n = natReprAux f2 n := by
  induction n using Nat.strong_induction_on with
  | _ n ih =>
    intro f1 f2 h1 h2
    match f1, f2 with
    | g1 + 1, g2 + 1 =>
      simp only [natReprAux]
      by_cases hn : n < 10
      · simp [hn]
      · have hd : n / 10 < n := Nat.div_lt_self (by omega) (by omega)
        simp only [hn, if_false]
        rw [ih (n / 10) hd g1 g2 (by omega) (by omega)]

theorem natRepr_eq (n : Nat) :
    natRepr n = if n < 10 then [digitChar n] else natRepr (n / 10) ++ [digitChar (n % 10)] := by
  unfold natRepr
  rw [natReprAux]
  by_cases hn : n < 10
  · simp [hn]
  · have hd : n / 10 < n := Nat.div_lt_self (by omega) (by omega)
    simp only [hn, if_false]
    rw [natReprAux_fuel (n / 10) n (n / 10 + 1) hd (by omega)]

theorem digitChar_digit (d : Nat) (h : d < 10) : isDigitC (digitChar d) = true := by
  interval_cases d <;> decide

theorem digitVal_digitChar (d : Nat) (h : d < 10) : digitVal (digitChar d) = d := by
  interval_cases d <;> decide

theorem natRepr_ne_nil (n : Nat) : natRepr n ≠ [] := by
  rw [natRepr_eq]
  by_cases hn : n < 10 <;> simp [hn]

theorem natRepr_digits (n : Nat) : ∀ c ∈ natRepr n, isDigitC c = true := by
  induction n using Nat.strong_induction_on with
  | _ n ih =>
    intro c hc
    rw [natRepr_eq] at hc
    by_cases hn : n < 10
    · simp [hn] at hc
      rw [hc]; exact digitChar_digit n hn
    · have hd : n / 10 < n := Nat.div_lt_self (by omega) (by omega)
      simp [hn] at hc
      rcases hc with hc | hc
      · exact ih (n / 10) hd c hc
      · rw [hc]; exact digitChar_digit (n % 10) (Nat.mod_lt n (by omega))

theorem digitsVal_append_one (xs : PyStr) (c : Char) :
    digitsVal (xs ++ [c]) = digitsVal xs * 10 + digitVal c := by
  unfold digitsVal
  rw [List.foldl_append]
  simp

theorem digitsVal_natRepr (n : Nat) : digitsVal (natRepr n) = n := by
  induction n using Nat.strong_induction_on with
  | _ n ih =>
    rw [natRepr_eq]
    by_cases hn : n < 10
    · simp [hn, digitsVal, digitVal_digitChar n hn]
    · have hd : n / 10 < n := Nat.div_lt_self (by omega) (by omega)
      simp only [hn, if_false]
      rw [digitsVal_append_one, ih (n / 10) hd, digitVal_digitChar (n % 10) (Nat.mod_lt n (by omega))]
      omega

theorem digit_not_ws (c : Char) (h : isDigitC c = true) : isWS c = false := by
  unfold isDigitC at h
  unfold isWS
  simp only [decide_eq_true_eq] at h
  simp only [decide_eq_false_iff_not]
  omega

theorem dropWhile_all_false (p : Char → Bool) (s : PyStr)
    (h : ∀ c ∈ s, p c = false) : s.dropWhile p = s := by
  match s with
  | [] => rfl
  | c :: rest =>
    have hc : p c = false := h c (by simp)
    simp [List.dropWhile_cons, hc]

theorem stripBy_all_false (p : Char → Bool) (s : PyStr)
    (h : ∀ c ∈ s, p c = false) : stripBy p s = s := by
  unfold stripBy
  rw [dropWhile_all_false p s h]
  rw [dropWhile_all_false p s.reverse (by intro c hc; exact h c (List.mem_reverse.mp hc))]
  simp

theorem pyInt_natRepr (n : Nat) : pyInt (natRepr n) = some ((n : Nat) : Int) := by
  have hdig := natRepr_digits n
  have hstrip : stripWS (natRepr n) = natRepr n := by
    unfold stripWS
    exact stripBy_all_false isWS (natRepr n)
      (fun c hc => digit_not_ws c (hdig c hc))
  unfold pyInt
  rw [hstrip]
  match hr : natRepr n with
  | [] => exact absurd hr (natRepr_ne_nil n)
  | c :: rest =>
    have hc : isDigitC c = true := hdig c (by rw [hr]; simp)
    have hplus : ¬(c = '+') := by
      intro he; rw [he] at hc; exact absurd hc (by decide)
    have hminus : ¬(c = '-') := by
      intro he; rw [he] at hc; exact absurd hc (by decide)
    have hall : (c :: rest).all isDigitC = true := by
      rw [List.all_eq_true]
      intro x hx
      exact hdig x (by rw [hr]; exact hx)
    simp only [hplus, if_false, hminus, hall, if_true]
    have : digitsVal (c :: rest) = n := by rw [← hr]; exact digitsVal_natRepr n
    rw [this]

theorem natRepr_len1 (n : Nat) (h : n < 10) : (natRepr n).length = 1 := by
  rw [natRepr_eq]; simp [h]

theorem natRepr_len_le2 (n : Nat) (h : n < 100) : (natRepr n).length ≤ 2 := by
  rw [natRepr_eq]
  by_cases hn : n < 10
  · simp [hn]
  · simp only [hn, if_false, List.length_append, List.length_cons, List.length_nil]
    have : (natRepr (n / 10)).length = 1 := natRepr_len1 (n / 10) (by omega)
    omega

theorem natRepr_len_le3 (n : Nat) (h : n < 1000) : (natRepr n).length ≤ 3 := by
  rw [natRepr_eq]
  by_cases hn : n < 10
  · simp [hn]
  · simp only [hn, if_false, List.length_append, List.length_cons, List.length_nil]
    have : (natRepr (n / 10)).length ≤ 2 := natRepr_len_le2 (n / 10) (by omega)
    omega

theorem digitsVal_zeros (z : Nat) (ds : PyStr) :
    digitsVal (List.replicate z '0' ++ ds) = digitsVal ds := by
  induction z with
  | zero => simp
  | succ m ih =>
    have : List.replicate (m + 1) '0' ++ ds = '0' :: (List.replicate m '0' ++ ds) := by
      simp [List.replicate_succ]
    rw [this]
    unfold digitsVal at ih ⊢
    simp only [List.foldl_cons]
    have : (0 : Nat) * 10 + digitVal '0' = 0 := by decide
    rw [this, ih]

theorem zfill_neg (nr : PyStr) (h : nr.length ≤ 3) :
    pyZfill ('-' :: nr) 4 = '-' :: (List.replicate (3 - nr.length) '0' ++ nr) := by
  unfold pyZfill
  by_cases h4 : 4 ≤ ('-' :: nr).length
  · have h3 : nr.length = 3 := by
      simp only [List.length_cons] at h4; omega
    simp only [h4, if_true, h3, Nat.sub_self, List.replicate_zero, List.nil_append]
  · simp only [h4, if_false]
    show (if ('-' = '+' ∨ '-' = '-') then '-' :: (List.replicate (4 - ('-' :: nr).length) '0' ++ nr)
          else List.replicate (4 - ('-' :: nr).length) '0' ++ ('-' :: nr)) =
        '-' :: (List.replicate (3 - nr.length) '0' ++ nr)
    rw [if_pos (by decide : ('-' = '+' ∨ '-' = '-'))]
    congr 2
    have hl : ('-' :: nr).length = nr.length + 1 := rfl
    congr 1
    omega

theorem stripWS_minus_zeros (z : Nat) (nr : PyStr) (hd : ∀ c ∈ nr, isDigitC c = true) :
    stripWS ('-' :: (List.replicate z '0' ++ nr)) = '-' :: (List.replicate z '0' ++ nr) := by
  apply stripBy_all_false
  intro c hc
  simp only [List.mem_cons, List.mem_append, List.mem_replicate] at hc
  rcases hc with hc | hc | hc
  · rw [hc]; decide
  · rw [hc.2]; decide
  · exact digit_not_ws c (hd c hc)

theorem pyInt_neg_small (m : Nat) (h1 : 1 ≤ m) (h2 : m ≤ 999) :
    pyInt ((pyZfill (intRepr (-(m : Int))) 4).take 4) = some (-(m : Int)) := by
  have hneg : (-(m : Int)) < 0 := by omega
  have hrepr : intRepr (-(m : Int)) = '-' :: natRepr m := by
    unfold intRepr
    have habs : (-(m : Int)).natAbs = m := by omega
    rw [if_pos hneg, habs]
  rw [hrepr, zfill_neg (natRepr m) (natRepr_len_le3 m (by omega))]
  have hlen1 : 1 ≤ (natRepr m).length := List.length_pos.mpr (natRepr_ne_nil m)
  have hlen3 : (natRepr m).length ≤ 3 := natRepr_len_le3 m (by omega)
  have hlen : ('-' :: (List.replicate (3 - (natRepr m).length) '0' ++ natRepr m)).length = 4 := by
    simp only [List.length_cons, List.length_append, List.length_replicate]
    omega
  rw [List.take_of_length_le (by rw [hlen])]
  unfold pyInt
  rw [stripWS_minus_zeros _ _ (natRepr_digits m)]
  have hne : ¬(('-' : Char) = '+') := by decide
  have heq : (('-' : Char) = '-') := rfl
  simp only [hne, if_false, heq, if_true]
  have hnonnil : List.replicate (3 - (natRepr m).length) '0' ++ natRepr m ≠ [] := by
    simp [natRepr_ne_nil m]
  have hall : (List.replicate (3 - (natRepr m).length) '0' ++ natRepr m).all isDigitC = true := by
    rw [List.all_eq_true]
    intro x hx
    simp only [List.mem_append, List.mem_replicate] at hx
    rcases hx with hx | hx
    · rw [hx.2]; decide
    · exact natRepr_digits m x hx
  simp only [hall, and_true]
  rw [if_pos hnonnil, digitsVal_zeros, digitsVal_natRepr]

theorem pyInt_decKey (k : Int) (hlo : -999 ≤ k) (hhi : k ≤ 0) :
    ∃ kk, pyInt (decKey k) = some kk ∧ -999 ≤ kk ∧ kk ≤ 0 := by
  by_cases hk : k = -999
  · refine ⟨-100, ?_, by omega, by omega⟩
    rw [hk]
    decide
  · have hrange : -999 ≤ k - 1 ∧ k - 1 ≤ -1 := by omega
    have hm : k - 1 = -((k - 1).natAbs : Int) := by omega
    refine ⟨k - 1, ?_, by omega, by omega⟩
    unfold decKey
    rw [hm, pyInt_neg_small (k - 1).natAbs (by omega) (by omega)]

theorem scanChain_found (ipNum : Int) (pre : List RangeRec) (r : RangeRec)
    (post : List RangeRec) (hpre : ∀ p ∈ pre, p.endIp < ipNum) (hr : ipNum ≤ r.endIp) :
    scanChain ipNum (pre ++ r :: post) = Except.ok (resultOf r) := by
  induction pre with
  | nil =>
    simp only [List.nil_append]
    unfold scanChain
    rw [if_neg (by omega)]
  | cons p ps ih =>
    simp only [List.cons_append]
    unfold scanChain
    rw [if_pos (hpre p (by simp))]
    exact ih (fun q hq => hpre q (by simp [hq]))

theorem scanChain_exhausted (ipNum : Int) (l : List RangeRec)
    (h : ∀ p ∈ l, p.endIp < ipNum) :
    scanChain ipNum l = Except.error PyErr.keyError := by
  induction l with
  | nil => rfl
  | cons p ps ih =>
    unfold scanChain
    rw [if_pos (h p (by simp))]
    exact ih (fun q hq => h q (by simp [hq]))

theorem pySplit_cons (sep c : Char) (rest : PyStr) :
    pySplit sep (c :: rest) =
      if c = sep then [] :: pySplit sep rest
      else (c :: (pySplit sep rest).headI) :: (pySplit sep rest).tail := rfl

theorem pySplit_ne_nil (sep : Char) (s : PyStr) : pySplit sep s ≠ [] := by
  match s with
  | [] => simp [pySplit]
  | c :: rest =>
    rw [pySplit_cons]
    by_cases hc : c = sep <;> simp [hc]

theorem pySplit_no_sep (sep : Char) (s : PyStr) (h : ∀ c ∈ s, ¬(c = sep)) :
    pySplit sep s = [s] := by
  induction s with
  | nil => rfl
  | cons c rest ih =>
    rw [pySplit_cons]
    rw [ih (fun x hx => h x (by simp [hx]))]
    rw [if_neg (h c (by simp))]
    rfl

theorem pySplit_sep_append (sep : Char) (A rest : PyStr) (h : ∀ c ∈ A, ¬(c = sep)) :
    pySplit sep (A ++ sep :: rest) = A :: pySplit sep rest := by
  induction A with
  | nil =>
    simp only [List.nil_append]
    rw [pySplit_cons, if_pos rfl]
  | cons c A ih =>
    have hstep : (c :: A) ++ sep :: rest = c :: (A ++ sep :: rest) := rfl
    rw [hstep, pySplit_cons]
    rw [ih (fun x hx => h x (by simp [hx]))]
    rw [if_neg (h c (by simp))]
    rfl

theorem digit_not_dot (c : Char) (h : isDigitC c = true) : ¬(c = '.') := by
  intro he
  rw [he] at h
  exact absurd h (by decide)

/-- The dotted-quad string built from the decimal representations of four
octet values. -/
def quadStr (a b c d : Nat) : PyStr :=
  natRepr a ++ '.' :: (natRepr b ++ '.' :: (natRepr c ++ '.' :: natRepr d))

theorem pySplit_quadStr (a b c d : Nat) :
    pySplit '.' (quadStr a b c d) = [natRepr a, natRepr b, natRepr c, natRepr d] := by
  unfold quadStr
  rw [pySplit_sep_append '.' (natRepr a) _
    (fun x hx => digit_not_dot x (natRepr_digits a x hx))]
  rw [pySplit_sep_append '.' (natRepr b) _
    (fun x hx => digit_not_dot x (natRepr_digits b x hx))]
  rw [pySplit_sep_append '.' (natRepr c) _
    (fun x hx => digit_not_dot x (natRepr_digits c x hx))]
  rw [pySplit_no_sep '.' (natRepr d)
    (fun x hx => digit_not_dot x (natRepr_digits d x hx))]

theorem lookupIP_parsed (d : IpDict) (fuel : Nat) (ipStr : PyStr) (ipNum : Int) (key : PyStr)
    (h : ipStrToIntAndKey ipStr = Except.ok (some (ipNum, key))) :
    lookupIP d fuel ipStr = backtrack d ipNum key fuel := by
  unfold lookupIP
  rw [h]

theorem backtrack_step_none (d : IpDict) (ipNum : Int) (key : PyStr) (k : Int) (fuel : Nat)
    (h : dictFind d (DKey.strKey key) = none) (hk : pyInt key = some k) :
    backtrack d ipNum key (fuel + 1) = backtrack d ipNum (decKey k) fuel := by
  simp only [backtrack, h, hk]

theorem backtrack_step_back (d : IpDict) (ipNum : Int) (key : PyStr) (k : Int) (fuel : Nat)
    (c0 : RangeRec) (cr : List RangeRec)
    (h : dictFind d (DKey.strKey key) = some (c0 :: cr)) (hlt : ipNum < c0.startIp)
    (hk : pyInt key = some k) :
    backtrack d ipNum key (fuel + 1) = backtrack d ipNum (decKey k) fuel := by
  simp only [backtrack, h, hk, if_pos hlt]

theorem backtrack_step_scan (d : IpDict) (ipNum : Int) (key : PyStr) (fuel : Nat)
    (c0 : RangeRec) (cr : List RangeRec)
    (h : dictFind d (DKey.strKey key) = some (c0 :: cr)) (hge : ¬(ipNum < c0.startIp)) :
    backtrack d ipNum key (fuel + 1) = some (scanChain ipNum (c0 :: cr)) := by
  simp only [backtrack, h, if_neg hge]

/-- Claim C1: for every syntactically valid four-octet address whose
covering range record sits in the bucket for the decremented key while the
initial key's bucket is missing or starts above the query, lookupIP
backtracks one key, selects the earlier bucket and returns that record's
result fields. The hypotheses on pre say that the records stored before
the covering one start at or below the query (bucket sorted by start) and
end below it (so the scan skips them). -/
theorem backtracking_success
    (d : IpDict) (fuel : Nat) (ipStr : PyStr) (ipNum : Int) (K : PyStr) (kv : Int)
    (pre post : List RangeRec) (r : RangeRec)
    (hparse : ipStrToIntAndKey ipStr = Except.ok (some (ipNum, K)))
    (hkv : pyInt K = some kv)
    (hmiss : dictFind d (DKey.strKey K) = none ∨
      ∃ c0 cr, dictFind d (DKey.strKey K) = some (c0 :: cr) ∧ ipNum < c0.startIp)
    (hfound : dictFind d (DKey.strKey (decKey kv)) = some (pre ++ r :: post))
    (hpre : ∀ p ∈ pre, p.startIp ≤ ipNum ∧ p.endIp < ipNum)
    (hcov : r.startIp ≤ ipNum ∧ ipNum ≤ r.endIp)
    (hfuel : 2 ≤ fuel) :
    lookupIP d fuel ipStr = some (Except.ok (resultOf r)) := by
  obtain ⟨f, rfl⟩ : ∃ f, fuel = f + 2 := ⟨fuel - 2, by omega⟩
  rw [lookupIP_parsed d (f + 2) ipStr ipNum K hparse]
  have h1 : backtrack d ipNum K (f + 1 + 1) = backtrack d ipNum (decKey kv) (f + 1) := by
    rcases hmiss with h | ⟨c0, cr, hfind, hlt⟩
    · exact backtrack_step_none d ipNum K kv (f + 1) h hkv
    · exact backtrack_step_back d ipNum K kv (f + 1) c0 cr hfind hlt hkv
  rw [show f + 2 = f + 1 + 1 from rfl, h1]
  have hsel : backtrack d ipNum (decKey kv) (f + 1) =
      some (scanChain ipNum (pre ++ r :: post)) := by
    cases pre with
    | nil =>
      exact backtrack_step_scan d ipNum (decKey kv) f r post hfound
        (by have := hcov.1; omega)
    | cons p ps =>
      exact backtrack_step_scan d ipNum (decKey kv) f p (ps ++ r :: post) hfound
        (by have := (hpre p (by simp)).1; omega)
  rw [hsel]
  rw [scanChain_found ipNum pre r post (fun p hp => (hpre p hp).2) hcov.2]

/-- Claim C2: once a bucket is selected (here: the initial key's bucket
exists and its first record starts at or below the query), lookupIP scans
it in stored order, skips records whose end bound is below the query, and
returns the first record whose end bound is not — with no hypothesis that
this record's start bound is at or below the query. -/
theorem scan_checks_end_bound_only
    (d : IpDict) (fuel : Nat) (ipStr : PyStr) (ipNum : Int) (K : PyStr)
    (c0 : RangeRec) (cs pre post : List RangeRec) (r : RangeRec)
    (hparse : ipStrToIntAndKey ipStr = Except.ok (some (ipNum, K)))
    (hfind : dictFind d (DKey.strKey K) = some (c0 :: cs))
    (hhead : c0.startIp ≤ ipNum)
    (hdecomp : c0 :: cs = pre ++ r :: post)
    (hpre : ∀ p ∈ pre, p.endIp < ipNum)
    (hr : ipNum ≤ r.endIp)
    (hfuel : 1 ≤ fuel) :
    lookupIP d fuel ipStr = some (Except.ok (resultOf r)) := by
  obtain ⟨f, rfl⟩ : ∃ f, fuel = f + 1 := ⟨fuel - 1, by omega⟩
  rw [lookupIP_parsed d (f + 1) ipStr ipNum K hparse]
  rw [backtrack_step_scan d ipNum K f c0 cs hfind (by omega)]
  rw [hdecomp]
  rw [scanChain_found ipNum pre r post hpre hr]

/-- Claim C4: when the address parses, a bucket is selected (exists, first
record starting at or below the query), and every record in it ends below
the query, lookupIP raises KeyError, i.e. NotFound. -/
theorem gap_not_found
    (d : IpDict) (fuel : Nat) (ipStr : PyStr) (ipNum : Int) (K : PyStr)
    (c0 : RangeRec) (cs : List RangeRec)
    (hparse : ipStrToIntAndKey ipStr = Except.ok (some (ipNum, K)))
    (hfind : dictFind d (DKey.strKey K) = some (c0 :: cs))
    (hhead : c0.startIp ≤ ipNum)
    (hall : ∀ p ∈ c0 :: cs, p.endIp < ipNum)
    (hfuel : 1 ≤ fuel) :
    lookupIP d fuel ipStr = some (Except.error PyErr.keyError) := by
  obtain ⟨f, rfl⟩ : ∃ f, fuel = f + 1 := ⟨fuel - 1, by omega⟩
  rw [lookupIP_parsed d (f + 1) ipStr ipNum K hparse]
  rw [backtrack_step_scan d ipNum K f c0 cs hfind (by omega)]
  rw [scanChain_exhausted ipNum (c0 :: cs) hall]

/-- Claim C5: get returns the default exactly when lookupIP raises
KeyError (NotFound), returns the identical tuple whenever lookupIP
succeeds, and propagates ValueError (InvalidAddress) instead of returning
the default. -/
theorem get_agrees_with_lookup {α : Type} (d : IpDict) (fuel : Nat) (ipStr : PyStr)
    (default : α) :
    (get d fuel ipStr default = some (Except.ok (Sum.inl default)) ↔
      lookupIP d fuel ipStr = some (Except.error PyErr.keyError)) ∧
    (∀ r, lookupIP d fuel ipStr = some (Except.ok r) →
      get d fuel ipStr default = some (Except.ok (Sum.inr r))) ∧
    (lookupIP d fuel ipStr = some (Except.error PyErr.valueError) →
      get d fuel ipStr default = some (Except.error PyErr.valueError)) := by
  cases hl : lookupIP d fuel ipStr with
  | none =>
    have hget : get d fuel ipStr default = none := by unfold get; rw [hl]
    rw [hget]
    simp
  | some x =>
    cases x with
    | ok r0 =>
      have hget : get d fuel ipStr default = some (Except.ok (Sum.inr r0)) := by
        unfold get; rw [hl]
      rw [hget]
      simp
    | error e =>
      cases e with
      | valueError =>
        have hget : get d fuel ipStr default = some (Except.error PyErr.valueError) := by
          unfold get; rw [hl]
        rw [hget]
        simp
      | keyError =>
        have hget : get d fuel ipStr default = some (Except.ok (Sum.inl default)) := by
          unfold get; rw [hl]
        rw [hget]
        simp
      | indexError =>
        have hget : get d fuel ipStr default = some (Except.error PyErr.indexError) := by
          unfold get; rw [hl]
        rw [hget]
        simp

theorem ipKey_four (s : PyStr) (o0 o1 o2 o3 : PyStr)
    (hsplit : pySplit '.' s = [o0, o1, o2, o3]) :
    ipStrToIntAndKey s =
      (match pyInt o0, pyInt o1, pyInt o2, pyInt o3 with
       | some a, some b, some c, some d =>
         Except.ok (some (d + c * 256 + b * 256 * 256 + a * 256 * 256 * 256,
           (pyZfill (intRepr (d + c * 256 + b * 256 * 256 + a * 256 * 256 * 256)) 10).take 4))
       | _, _, _, _ => Except.error PyErr.valueError) := by
  unfold ipStrToIntAndKey
  rw [hsplit]

theorem ipKey_not4 (s : PyStr) (h : (pySplit '.' s).length ≠ 4) :
    ipStrToIntAndKey s = Except.ok none := by
  unfold ipStrToIntAndKey
  rcases hs : pySplit '.' s with _ | ⟨x1, _ | ⟨x2, _ | ⟨x3, _ | ⟨x4, _ | ⟨x5, rest⟩⟩⟩⟩⟩
  · rfl
  · rfl
  · rfl
  · rfl
  · exact absurd (by rw [hs]; rfl) h
  · rfl

/-- Claim C8: an input that does not split into exactly four dot-separated
pieces makes lookupIP raise ValueError (InvalidAddress); so does a
four-piece input where some octet fails int conversion; but when all four
octets convert, the parser succeeds with no range check on the values, so
octets outside 0-255 do not raise InvalidAddress. -/
theorem invalid_address (d : IpDict) (fuel : Nat) (s : PyStr) :
    ((pySplit '.' s).length ≠ 4 → lookupIP d fuel s = some (Except.error PyErr.valueError)) ∧
    (∀ o0 o1 o2 o3, pySplit '.' s = [o0, o1, o2, o3] →
      (pyInt o0 = none ∨ pyInt o1 = none ∨ pyInt o2 = none ∨ pyInt o3 = none) →
      lookupIP d fuel s = some (Except.error PyErr.valueError)) ∧
    (∀ o0 o1 o2 o3 a b c e, pySplit '.' s = [o0, o1, o2, o3] →
      pyInt o0 = some a → pyInt o1 = some b → pyInt o2 = some c → pyInt o3 = some e →
      ipStrToIntAndKey s = Except.ok (some
        (e + c * 256 + b * 256 * 256 + a * 256 * 256 * 256,
         (pyZfill (intRepr (e + c * 256 + b * 256 * 256 + a * 256 * 256 * 256)) 10).take 4))) := by
  refine ⟨?_, ?_, ?_⟩
  · intro h
    have hk : ipStrToIntAndKey s = Except.ok none := ipKey_not4 s h
    unfold lookupIP
    rw [hk]
  · intro o0 o1 o2 o3 hsplit hdisj
    have hk : ipStrToIntAndKey s = Except.error PyErr.valueError := by
      rw [ipKey_four s o0 o1 o2 o3 hsplit]
      rcases h0 : pyInt o0 with _ | a <;>
        rcases h1 : pyInt o1 with _ | b <;>
          rcases h2 : pyInt o2 with _ | c <;>
            rcases h3 : pyInt o3 with _ | e <;>
              first
              | rfl
              | simp [h0, h1, h2, h3] at hdisj
    unfold lookupIP
    rw [hk]
  · intro o0 o1 o2 o3 a b c e hsplit h0 h1 h2 h3
    rw [ipKey_four s o0 o1 o2 o3 hsplit, h0, h1, h2, h3]

/-- Record used by the C1 witness: its range covers 2490368 = 0.38.0.0
but its bucket key is 0001, one below the query's initial key 0002. -/
def rC1 : RangeRec :=
  ⟨1900000, 2500000, "US".data, "United States".data, "CA".data, "Stanford".data,
   "37.4".data, "-122.2".data, "94305".data, "-07:00".data, "1".data, "650".data⟩

/-- Table for the C1 witness: only the bucket 0001 exists. -/
def dC1 : IpDict := [(DKey.strKey "0001".data, [rC1])]

theorem backtracking_success_witness :
    lookupIP dC1 2 "0.38.0.0".data = some (Except.ok (resultOf rC1)) :=
  backtracking_success dC1 2 "0.38.0.0".data 2490368 "0002".data 2 [] [] rC1
    rfl rfl (Or.inl rfl) rfl (by simp) (by decide) (by decide)

/-- Records for the C2 witness: the first is skipped (end bound below the
query 20), the second is returned although its start bound 1000 exceeds
the query. -/
def pC2 : RangeRec :=
  ⟨0, 10, "AA".data, "Aland".data, "R".data, "C".data,
   "1.0".data, "2.0".data, "z".data, "t".data, "p".data, "q".data⟩

def rC2 : RangeRec :=
  ⟨1000, 2000, "BB".data, "Bland".data, "S".data, "D".data,
   "3.0".data, "4.0".data, "y".data, "u".data, "r".data, "s".data⟩

def dC2 : IpDict := [(DKey.strKey "0000".data, [pC2, rC2])]

theorem scan_checks_end_bound_only_witness :
    lookupIP dC2 1 "0.0.0.20".data = some (Except.ok (resultOf rC2)) :=
  scan_checks_end_bound_only dC2 1 "0.0.0.20".data 20 "0000".data
    pC2 [rC2] [pC2] [] rC2
    rfl rfl (by decide) rfl (by decide) (by decide) (by decide)

/-- Record for the C4 witness: its bucket is selected for the query 25
(start 10 at or below 25) but its end bound 20 is below the query. -/
def rC4 : RangeRec :=
  ⟨10, 20, "CC".data, "Cland".data, "T".data, "E".data,
   "5.0".data, "6.0".data, "x".data, "v".data, "m".data, "n".data⟩

def dC4 : IpDict := [(DKey.strKey "0000".data, [rC4])]

theorem gap_not_found_witness :
    lookupIP dC4 1 "0.0.0.25".data = some (Except.error PyErr.keyError) :=
  gap_not_found dC4 1 "0.0.0.25".data 25 "0000".data rC4 []
    rfl rfl (by decide) (by decide) (by decide)

/-- Record and table for the C5 witness. -/
def rC5 : RangeRec :=
  ⟨0, 10, "DD".data, "Dland".data, "U".data, "F".data,
   "7.0".data, "8.0".data, "w".data, "o".data, "k".data, "l".data⟩

def dC5 : IpDict := [(DKey.strKey "0000".data, [rC5])]

theorem get_agrees_with_lookup_witness :
    get dC5 1 "0.0.0.5".data (0 : Nat) = some (Except.ok (Sum.inr (resultOf rC5))) ∧
    get dC5 1 "0.0.0.99".data (0 : Nat) = some (Except.ok (Sum.inl 0)) ∧
    get dC5 1 "1.2.3".data (0 : Nat) = some (Except.error PyErr.valueError) := by
  refine ⟨?_, ?_, ?_⟩
  · exact (get_agrees_with_lookup dC5 1 "0.0.0.5".data 0).2.1 (resultOf rC5) rfl
  · exact (get_agrees_with_lookup dC5 1 "0.0.0.99".data 0).1.mpr rfl
  · exact (get_agrees_with_lookup dC5 1 "1.2.3".data 0).2.2 rfl

theorem invalid_address_witness :
    lookupIP [] 1 "1.2.3".data = some (Except.error PyErr.valueError) ∧
    lookupIP [] 1 "not.an.ip.addr".data = some (Except.error PyErr.valueError) ∧
    ipStrToIntAndKey "999.2.3.4".data = Except.ok (some
      (4 + 3 * 256 + 2 * 256 * 256 + 999 * 256 * 256 * 256,
       (pyZfill (intRepr (4 + 3 * 256 + 2 * 256 * 256 + 999 * 256 * 256 * 256)) 10).take 4)) := by
  refine ⟨?_, ?_, ?_⟩
  · exact (invalid_address [] 1 "1.2.3".data).1 (by decide)
  · exact (invalid_address [] 1 "not.an.ip.addr".data).2.1
      "not".data "an".data "ip".data "addr".data rfl (Or.inl rfl)
  · exact (invalid_address [] 1 "999.2.3.4".data).2.2
      "999".data "2".data "3".data "4".data 999 2 3 4 rfl rfl rfl rfl rfl

/-- Record whose bucket key is 2000; for the C3 failing input there is no
bucket at or below the query's initial key 0000, so the loop never finds
a bucket to select. -/
def rC3 : RangeRec :=
  ⟨2000000000, 2000000005, "EE".data, "Eland".data, "V".data, "G".data,
   "9.0".data, "9.5".data, "h".data, "i".data, "j".data, "g".data⟩

def dC3 : IpDict := [(DKey.strKey "2000".data, [rC3])]

theorem dictFind_dC3_none (key : PyStr) (k : Int) (hk : pyInt key = some k)
    (hle : k ≤ 0) : dictFind dC3 (DKey.strKey key) = none := by
  have hne : ¬("2000".data = key) := by
    intro he
    rw [← he] at hk
    have h2 : pyInt "2000".data = some 2000 := by decide
    rw [h2] at hk
    have : (2000 : Int) = k := by injection hk
    omega
  unfold dC3 dictFind
  rw [if_neg (fun h => hne (by injection h))]
  rfl

theorem backtrack_dC3_none : ∀ fuel (key : PyStr) (k : Int), pyInt key = some k →
    -999 ≤ k → k ≤ 0 → backtrack dC3 1 key fuel = none := by
  intro fuel
  induction fuel with
  | zero => intro key k _ _ _; rfl
  | succ f ih =>
    intro key k hk hlo hhi
    rw [backtrack_step_none dC3 1 key k f (dictFind_dC3_none key k hk hhi) hk]
    obtain ⟨kk, hkk, hklo, hkhi⟩ := pyInt_decKey k hlo hhi
    exact ih (decKey k) kk hkk hklo hkhi

/-- Claim C3 (refuted by the code): on a table whose only bucket key is
2000, looking up the valid address 0.0.0.1 (initial key 0000) never
terminates: in Python 2 the loop condition compares the string key with
the int 0 and is always true, so the key is decremented past zero into
negative four-character strings (0000, -001, ..., -999, then -100 again
by the slice of str(-1000)) forever, and NotFound is never raised. The
theorem states that no iteration bound makes lookupIP finish. -/
theorem backtracking_never_terminates :
    ∀ fuel, lookupIP dC3 fuel "0.0.0.1".data = none := by
  intro fuel
  rw [lookupIP_parsed dC3 fuel "0.0.0.1".data 1 "0000".data rfl]
  exact backtrack_dC3_none fuel "0000".data 0 (by decide) (by decide) (by decide)

theorem ipKey_quad (a b c d : Nat) :
    ipStrToIntAndKey (quadStr a b c d) = Except.ok (some
      ((d : Int) + c * 256 + b * 256 * 256 + a * 256 * 256 * 256,
       (pyZfill (intRepr ((d : Int) + c * 256 + b * 256 * 256 + a * 256 * 256 * 256)) 10).take 4)) := by
  rw [ipKey_four (quadStr a b c d) _ _ _ _ (pySplit_quadStr a b c d),
      pyInt_natRepr a, pyInt_natRepr b, pyInt_natRepr c, pyInt_natRepr d]

/-- Claim C7: parsing the dotted-quad string of four octets in 0-255
yields an ipNum whose four base-256 digits are the original octets, and
rebuilding the quad string from those digits reproduces the input
string. -/
theorem ipStrToIntAndKey_roundtrip (a b c d : Nat) (ha : a ≤ 255) (hb : b ≤ 255)
    (hc : c ≤ 255) (hd : d ≤ 255) :
    ∃ ipNum key,
      ipStrToIntAndKey (quadStr a b c d) = Except.ok (some (ipNum, key)) ∧
      ipNum.toNat / 16777216 % 256 = a ∧ ipNum.toNat / 65536 % 256 = b ∧
      ipNum.toNat / 256 % 256 = c ∧ ipNum.toNat % 256 = d ∧
      quadStr (ipNum.toNat / 16777216 % 256) (ipNum.toNat / 65536 % 256)
        (ipNum.toNat / 256 % 256) (ipNum.toNat % 256) = quadStr a b c d := by
  have hN : ((d : Int) + c * 256 + b * 256 * 256 + a * 256 * 256 * 256).toNat
      = d + c * 256 + b * 65536 + a * 16777216 := by omega
  have e1 : (d + c * 256 + b * 65536 + a * 16777216) / 16777216 % 256 = a := by omega
  have e2 : (d + c * 256 + b * 65536 + a * 16777216) / 65536 % 256 = b := by omega
  have e3 : (d + c * 256 + b * 65536 + a * 16777216) / 256 % 256 = c := by omega
  have e4 : (d + c * 256 + b * 65536 + a * 16777216) % 256 = d := by omega
  refine ⟨_, _, ipKey_quad a b c d, ?_, ?_, ?_, ?_, ?_⟩
  · rw [hN]; exact e1
  · rw [hN]; exact e2
  · rw [hN]; exact e3
  · rw [hN]; exact e4
  · rw [hN, e1, e2, e3, e4]

theorem ipStrToIntAndKey_roundtrip_witness :
    ∃ ipNum key,
      ipStrToIntAndKey (quadStr 171 64 75 96) = Except.ok (some (ipNum, key)) ∧
      ipNum.toNat / 16777216 % 256 = 171 ∧ ipNum.toNat / 65536 % 256 = 64 ∧
      ipNum.toNat / 256 % 256 = 75 ∧ ipNum.toNat % 256 = 96 ∧
      quadStr (ipNum.toNat / 16777216 % 256) (ipNum.toNat / 65536 % 256)
        (ipNum.toNat / 256 % 256) (ipNum.toNat % 256) = quadStr 171 64 75 96 :=
  ipStrToIntAndKey_roundtrip 171 64 75 96 (by decide) (by decide) (by decide) (by decide)

theorem dictFind_dictSet_self (d : IpDict) (k : DKey) (v : List RangeRec) :
    dictFind (dictSet d k v) k = some v := by
  induction d with
  | nil => simp [dictSet, dictFind]
  | cons p rest ih =>
    obtain ⟨k', v'⟩ := p
    unfold dictSet
    by_cases hk : k' = k
    · rw [if_pos hk]
      unfold dictFind
      rw [if_pos rfl]
    · rw [if_neg hk]
      unfold dictFind
      rw [if_neg hk]
      exact ih

theorem dictFind_dictSet_other (d : IpDict) (k q : DKey) (v : List RangeRec)
    (hne : ¬(k = q)) : dictFind (dictSet d k v) q = dictFind d q := by
  induction d with
  | nil => simp [dictSet, dictFind, hne]
  | cons p rest ih =>
    obtain ⟨k', v'⟩ := p
    unfold dictSet
    by_cases hk : k' = k
    · rw [if_pos hk]
      unfold dictFind
      rw [if_neg hne, if_neg (by rw [hk]; exact hne)]
    · rw [if_neg hk]
      unfold dictFind
      by_cases hq : k' = q
      · rw [if_pos hq, if_pos hq]
      · rw [if_neg hq, if_neg hq]
        exact ih

theorem fields12_none (line : List PyStr) (h : line.length ≠ 12) : fields12 line = none := by
  rcases line with _ | ⟨a0, _ | ⟨a1, _ | ⟨a2, _ | ⟨a3, _ | ⟨a4, _ | ⟨a5, _ | ⟨a6, _ |
    ⟨a7, _ | ⟨a8, _ | ⟨a9, _ | ⟨a10, _ | ⟨a11, _ | ⟨a12, rest⟩⟩⟩⟩⟩⟩⟩⟩⟩⟩⟩⟩⟩ <;>
    first
    | rfl
    | exact absurd (by rfl) h

theorem loadRow_skip (st : LoadState) (line : List PyStr) (h : skipRow line) :
    loadRow st line = Except.ok st := by
  unfold loadRow
  rw [if_pos h]

theorem loadRow_malformed (st : LoadState) (line : List PyStr) (hns : ¬skipRow line)
    (h : fields12 line = none) : loadRow st line = Except.ok st := by
  unfold loadRow
  rw [if_neg hns, h]

theorem loadRow_fields (st : LoadState) (line : List PyStr)
    (s0 s1 s2 s3 s4 s5 s6 s7 s8 s9 s10 s11 : PyStr) (hns : ¬skipRow line)
    (hf : fields12 line = some (s0, s1, s2, s3, s4, s5, s6, s7, s8, s9, s10, s11)) :
    loadRow st line = loadFields st s0 s1 s2 s3 s4 s5 s6 s7 s8 s9 s10 s11 := by
  unfold loadRow
  rw [if_neg hns, hf]

theorem st1Of_keep (st : LoadState) (hk : DKey) (h : hk = st.currKey) :
    st1Of st hk = st := by
  unfold st1Of
  rw [if_neg (by simp [h])]

theorem st1Of_reset (st : LoadState) (hk : DKey) (h : ¬(hk = st.currKey)) :
    st1Of st hk = ⟨hk, dictSet st.ipDict hk [], st.tl⟩ := by
  unfold st1Of
  rw [if_pos h]

theorem loadFields_ok (st : LoadState)
    (s0 s1 s2 s3 s4 s5 s6 s7 s8 s9 s10 s11 : PyStr) (si ei : Int)
    (bucket : List RangeRec)
    (h0 : pyInt (pyStripQuotes s0) = some si) (h1 : pyInt (pyStripQuotes s1) = some ei)
    (hf6 : floatOk s6 = true) (hf7 : floatOk s7 = true)
    (hb : dictFind (st1Of st (DKey.strKey (hashKeyOf s0))).ipDict
      (DKey.strKey (hashKeyOf s0)) = some bucket) :
    loadFields st s0 s1 s2 s3 s4 s5 s6 s7 s8 s9 s10 s11 = Except.ok
      ⟨(st1Of st (DKey.strKey (hashKeyOf s0))).currKey,
       dictSet (st1Of st (DKey.strKey (hashKeyOf s0))).ipDict (DKey.strKey (hashKeyOf s0))
         (bucket ++ [mkRec s2 s3 s4 s5 s6 s7 s8 s9 s10 s11 si ei]),
       tlSet (st1Of st (DKey.strKey (hashKeyOf s0))).tl (pyStripQuotes s2)
         (pyStripQuotes s2, pyStripQuotes s3, pyStripQuotes s4, pyStripQuotes s5)⟩ := by
  simp only [loadFields]
  rw [hb, h0, h1, hf6, hf7]

/-- A kept row: skip test misses, twelve fields, both range bounds convert
and both coordinates parse as floats. When the hash key equals currKey the
hypothesis hcur supplies the existing bucket (guaranteed in loader-
reachable states); the row's record is appended to the existing bucket or
to a freshly reset one, currKey becomes the hash key, and no other bucket
changes. -/
theorem loadRow_kept (st : LoadState)
    (s0 s1 s2 s3 s4 s5 s6 s7 s8 s9 s10 s11 : PyStr) (si ei : Int)
    (hns : ¬skipRow [s0, s1, s2, s3, s4, s5, s6, s7, s8, s9, s10, s11])
    (h0 : pyInt (pyStripQuotes s0) = some si) (h1 : pyInt (pyStripQuotes s1) = some ei)
    (hf6 : floatOk s6 = true) (hf7 : floatOk s7 = true)
    (hcur : DKey.strKey (hashKeyOf s0) = st.currKey →
      (dictFind st.ipDict (DKey.strKey (hashKeyOf s0))).isSome = true) :
    ∃ st', loadRow st [s0, s1, s2, s3, s4, s5, s6, s7, s8, s9, s10, s11] = Except.ok st' ∧
      st'.currKey = DKey.strKey (hashKeyOf s0) ∧
      dictFind st'.ipDict (DKey.strKey (hashKeyOf s0)) = some
        ((if DKey.strKey (hashKeyOf s0) = st.currKey then
            (dictFind st.ipDict (DKey.strKey (hashKeyOf s0))).getD []
          else []) ++ [mkRec s2 s3 s4 s5 s6 s7 s8 s9 s10 s11 si ei]) ∧
      (∀ q, ¬(q = DKey.strKey (hashKeyOf s0)) →
        dictFind st'.ipDict q = dictFind st.ipDict q) := by
  rw [loadRow_fields st _ s0 s1 s2 s3 s4 s5 s6 s7 s8 s9 s10 s11 hns rfl]
  by_cases hck : DKey.strKey (hashKeyOf s0) = st.currKey
  · obtain ⟨bucket, hb⟩ : ∃ v, dictFind st.ipDict (DKey.strKey (hashKeyOf s0)) = some v := by
      have hs := hcur hck
      cases hfb : dictFind st.ipDict (DKey.strKey (hashKeyOf s0)) with
      | none => rw [hfb] at hs; exact absurd hs (by simp)
      | some v => exact ⟨v, rfl⟩
    have hb1 : dictFind (st1Of st (DKey.strKey (hashKeyOf s0))).ipDict
        (DKey.strKey (hashKeyOf s0)) = some bucket := by
      rw [st1Of_keep st _ hck]; exact hb
    refine ⟨_, loadFields_ok st s0 s1 s2 s3 s4 s5 s6 s7 s8 s9 s10 s11 si ei bucket
      h0 h1 hf6 hf7 hb1, ?_, ?_, ?_⟩
    · rw [st1Of_keep st _ hck]
      exact hck.symm
    · rw [st1Of_keep st _ hck]
      show dictFind (dictSet st.ipDict (DKey.strKey (hashKeyOf s0)) _) _ = _
      rw [dictFind_dictSet_self, if_pos hck, hb]
      rfl
    · intro q hq
      rw [st1Of_keep st _ hck]
      show dictFind (dictSet st.ipDict (DKey.strKey (hashKeyOf s0)) _) q = _
      rw [dictFind_dictSet_other _ _ _ _ (fun he => hq he.symm)]
  · have hb1 : dictFind (st1Of st (DKey.strKey (hashKeyOf s0))).ipDict
        (DKey.strKey (hashKeyOf s0)) = some [] := by
      rw [st1Of_reset st _ hck]
      exact dictFind_dictSet_self st.ipDict _ []
    refine ⟨_, loadFields_ok st s0 s1 s2 s3 s4 s5 s6 s7 s8 s9 s10 s11 si ei []
      h0 h1 hf6 hf7 hb1, ?_, ?_, ?_⟩
    · rw [st1Of_reset st _ hck]
    · rw [st1Of_reset st _ hck]
      show dictFind (dictSet (dictSet st.ipDict _ []) (DKey.strKey (hashKeyOf s0)) _) _ = _
      rw [dictFind_dictSet_self, if_neg hck]
    · intro q hq
      rw [st1Of_reset st _ hck]
      show dictFind (dictSet (dictSet st.ipDict _ []) (DKey.strKey (hashKeyOf s0)) _) q = _
      rw [dictFind_dictSet_other _ _ _ _ (fun he => hq he.symm),
          dictFind_dictSet_other _ _ _ _ (fun he => hq he.symm)]

theorem fields12_some (line : List PyStr)
    (s0 s1 s2 s3 s4 s5 s6 s7 s8 s9 s10 s11 : PyStr)
    (h : fields12 line = some (s0, s1, s2, s3, s4, s5, s6, s7, s8, s9, s10, s11)) :
    line = [s0, s1, s2, s3, s4, s5, s6, s7, s8, s9, s10, s11] := by
  rcases line with _ | ⟨a0, _ | ⟨a1, _ | ⟨a2, _ | ⟨a3, _ | ⟨a4, _ | ⟨a5, _ | ⟨a6, _ |
    ⟨a7, _ | ⟨a8, _ | ⟨a9, _ | ⟨a10, _ | ⟨a11, _ | ⟨a12, rest⟩⟩⟩⟩⟩⟩⟩⟩⟩⟩⟩⟩⟩ <;>
    simp [fields12] at h
  obtain ⟨rfl, rfl, rfl, rfl, rfl, rfl, rfl, rfl, rfl, rfl, rfl, rfl⟩ := h
  rfl

theorem loadFields_err (st : LoadState)
    (s0 s1 s2 s3 s4 s5 s6 s7 s8 s9 s10 s11 : PyStr) (bucket : List RangeRec)
    (hb : dictFind (st1Of st (DKey.strKey (hashKeyOf s0))).ipDict
      (DKey.strKey (hashKeyOf s0)) = some bucket)
    (hfail : pyInt (pyStripQuotes s0) = none ∨ pyInt (pyStripQuotes s1) = none ∨
      floatOk s6 = false ∨ floatOk s7 = false) :
    loadFields st s0 s1 s2 s3 s4 s5 s6 s7 s8 s9 s10 s11 = Except.error PyErr.valueError := by
  simp only [loadFields]
  rw [hb]
  rcases h0 : pyInt (pyStripQuotes s0) with _ | si <;>
    rcases h1 : pyInt (pyStripQuotes s1) with _ | ei <;>
      rcases h6 : floatOk s6 with _ | _ <;>
        rcases h7 : floatOk s7 with _ | _ <;>
          first
          | rfl
          | simp [h0, h1, h6, h7] at hfail

/-- On a non-skipped twelve-field row whose int or float conversion fails,
the whole load fails with the uncaught ValueError of the conversion.
When the hash key equals currKey the hypothesis hcur supplies the bucket
needed by the append expression (guaranteed in loader-reachable
states). -/
theorem loadRow_conv_fail (st : LoadState)
    (s0 s1 s2 s3 s4 s5 s6 s7 s8 s9 s10 s11 : PyStr)
    (hns : ¬skipRow [s0, s1, s2, s3, s4, s5, s6, s7, s8, s9, s10, s11])
    (hcur : DKey.strKey (hashKeyOf s0) = st.currKey →
      (dictFind st.ipDict (DKey.strKey (hashKeyOf s0))).isSome = true)
    (hfail : pyInt (pyStripQuotes s0) = none ∨ pyInt (pyStripQuotes s1) = none ∨
      floatOk s6 = false ∨ floatOk s7 = false) :
    loadRow st [s0, s1, s2, s3, s4, s5, s6, s7, s8, s9, s10, s11] =
      Except.error PyErr.valueError := by
  rw [loadRow_fields st _ s0 s1 s2 s3 s4 s5 s6 s7 s8 s9 s10 s11 hns rfl]
  by_cases hck : DKey.strKey (hashKeyOf s0) = st.currKey
  · obtain ⟨bucket, hb⟩ : ∃ v, dictFind st.ipDict (DKey.strKey (hashKeyOf s0)) = some v := by
      have hs := hcur hck
      cases hfb : dictFind st.ipDict (DKey.strKey (hashKeyOf s0)) with
      | none => rw [hfb] at hs; exact absurd hs (by simp)
      | some v => exact ⟨v, rfl⟩
    exact loadFields_err st s0 s1 s2 s3 s4 s5 s6 s7 s8 s9 s10 s11 bucket
      (by rw [st1Of_keep st _ hck]; exact hb) hfail
  · exact loadFields_err st s0 s1 s2 s3 s4 s5 s6 s7 s8 s9 s10 s11 []
      (by rw [st1Of_reset st _ hck]; exact dictFind_dictSet_self st.ipDict _ []) hfail

theorem prevRep_some (ck : DKey) (hk : PyStr) :
    (DKey.strKey hk = ck) ↔ (prevRep ck = some hk) := by
  cases ck with
  | intKey n => simp [prevRep]
  | strKey s =>
    unfold prevRep
    constructor
    · intro h
      injection h with h'
      rw [h']
    · intro h
      injection h with h'
      rw [h']

theorem classifyRow_skip (line : List PyStr) (h : skipRow line) :
    classifyRow line = RowAct.skip := by
  unfold classifyRow
  rw [if_pos h]

theorem classifyRow_malformed (line : List PyStr) (hns : ¬skipRow line)
    (hf : fields12 line = none) : classifyRow line = RowAct.skip := by
  unfold classifyRow
  rw [if_neg hns, hf]

theorem classifyRow_kept (line : List PyStr)
    (s0 s1 s2 s3 s4 s5 s6 s7 s8 s9 s10 s11 : PyStr) (si ei : Int)
    (hns : ¬skipRow line)
    (hf : fields12 line = some (s0, s1, s2, s3, s4, s5, s6, s7, s8, s9, s10, s11))
    (h0 : pyInt (pyStripQuotes s0) = some si) (h1 : pyInt (pyStripQuotes s1) = some ei)
    (h6 : floatOk s6 = true) (h7 : floatOk s7 = true) :
    classifyRow line = RowAct.kept (hashKeyOf s0)
      (mkRec s2 s3 s4 s5 s6 s7 s8 s9 s10 s11 si ei) := by
  unfold classifyRow
  rw [if_neg hns]
  simp only [hf]
  rw [h0, h1, h6, h7]

theorem keptList_cons_skip (line : List PyStr) (rest : List (List PyStr))
    (h : classifyRow line = RowAct.skip) :
    keptList (line :: rest) = keptList rest := by
  simp [keptList, List.filterMap_cons, h]

theorem keptList_cons_kept (line : List PyStr) (rest : List (List PyStr))
    (hk : PyStr) (r : RangeRec) (h : classifyRow line = RowAct.kept hk r) :
    keptList (line :: rest) = (hk, r) :: keptList rest := by
  simp [keptList, List.filterMap_cons, h]

theorem loadRows_cons_ok (st : LoadState) (line : List PyStr) (rest : List (List PyStr))
    (st' : LoadState) (h : loadRow st line = Except.ok st') :
    loadRows st (line :: rest) = loadRows st' rest := by
  show (match loadRow st line with
    | Except.ok st2 => loadRows st2 rest
    | Except.error e => Except.error e) = loadRows st' rest
  rw [h]

theorem loadRows_cons_err (st : LoadState) (line : List PyStr) (rest : List (List PyStr))
    (e : PyErr) (h : loadRow st line = Except.error e) :
    loadRows st (line :: rest) = Except.error e := by
  show (match loadRow st line with
    | Except.ok st2 => loadRows st2 rest
    | Except.error e2 => Except.error e2) = Except.error e
  rw [h]

/-- The per-key refinement: a successful run of the loader from a state
whose currKey bucket exists computes, for every string key, exactly the
fold of perKeyStep over the kept rows, and preserves the invariant. -/
theorem loadRows_perKey : ∀ (rows : List (List PyStr)) (st0 st1 : LoadState), Inv st0 →
    loadRows st0 rows = Except.ok st1 →
    Inv st1 ∧ ∀ k : PyStr,
      (prevRep st1.currKey, dictFind st1.ipDict (DKey.strKey k)) =
        List.foldl (perKeyStep k) (prevRep st0.currKey, dictFind st0.ipDict (DKey.strKey k))
          (keptList rows) := by
  intro rows
  induction rows with
  | nil =>
    intro st0 st1 hInv hload
    unfold loadRows at hload
    injection hload with h
    subst h
    exact ⟨hInv, fun k => rfl⟩
  | cons line rest ih =>
    intro st0 st1 hInv hload
    by_cases hs : skipRow line
    · have hload' : loadRows st0 rest = Except.ok st1 := by
        rw [loadRows_cons_ok st0 line rest st0 (loadRow_skip st0 line hs)] at hload
        exact hload
      have hres := ih st0 st1 hInv hload'
      refine ⟨hres.1, fun k => ?_⟩
      rw [keptList_cons_skip line rest (classifyRow_skip line hs)]
      exact hres.2 k
    · cases hf : fields12 line with
      | none =>
        have hload' : loadRows st0 rest = Except.ok st1 := by
          rw [loadRows_cons_ok st0 line rest st0 (loadRow_malformed st0 line hs hf)] at hload
          exact hload
        have hres := ih st0 st1 hInv hload'
        refine ⟨hres.1, fun k => ?_⟩
        rw [keptList_cons_skip line rest (classifyRow_malformed line hs hf)]
        exact hres.2 k
      | some t =>
        obtain ⟨s0, s1, s2, s3, s4, s5, s6, s7, s8, s9, s10, s11⟩ := t
        have hline := fields12_some line s0 s1 s2 s3 s4 s5 s6 s7 s8 s9 s10 s11 hf
        subst hline
        have hcur : DKey.strKey (hashKeyOf s0) = st0.currKey →
            (dictFind st0.ipDict (DKey.strKey (hashKeyOf s0))).isSome = true := by
          intro he
          rw [he]
          exact hInv
        rcases h0 : pyInt (pyStripQuotes s0) with _ | si
        · rw [loadRows_cons_err st0 _ rest PyErr.valueError
            (loadRow_conv_fail st0 s0 s1 s2 s3 s4 s5 s6 s7 s8 s9 s10 s11 hs hcur
              (Or.inl h0))] at hload
          exact absurd hload (by simp)
        · rcases h1 : pyInt (pyStripQuotes s1) with _ | ei
          · rw [loadRows_cons_err st0 _ rest PyErr.valueError
              (loadRow_conv_fail st0 s0 s1 s2 s3 s4 s5 s6 s7 s8 s9 s10 s11 hs hcur
                (Or.inr (Or.inl h1)))] at hload
            exact absurd hload (by simp)
          · rcases h6 : floatOk s6 with _ | _
            · rw [loadRows_cons_err st0 _ rest PyErr.valueError
                (loadRow_conv_fail st0 s0 s1 s2 s3 s4 s5 s6 s7 s8 s9 s10 s11 hs hcur
                  (Or.inr (Or.inr (Or.inl h6))))] at hload
              exact absurd hload (by simp)
            · rcases h7 : floatOk s7 with _ | _
              · rw [loadRows_cons_err st0 _ rest PyErr.valueError
                  (loadRow_conv_fail st0 s0 s1 s2 s3 s4 s5 s6 s7 s8 s9 s10 s11 hs hcur
                    (Or.inr (Or.inr (Or.inr h7))))] at hload
                exact absurd hload (by simp)
              · obtain ⟨st', hlr, hck', hfind', hother'⟩ :=
                  loadRow_kept st0 s0 s1 s2 s3 s4 s5 s6 s7 s8 s9 s10 s11 si ei hs
                    h0 h1 h6 h7 hcur
                have hload' : loadRows st' rest = Except.ok st1 := by
                  rw [loadRows_cons_ok st0 _ rest st' hlr] at hload
                  exact hload
                have hInv' : Inv st' := by
                  unfold Inv
                  rw [hck', hfind']
                  rfl
                have hres := ih st' st1 hInv' hload'
                refine ⟨hres.1, fun k => ?_⟩
                rw [keptList_cons_kept _ rest (hashKeyOf s0)
                  (mkRec s2 s3 s4 s5 s6 s7 s8 s9 s10 s11 si ei)
                  (classifyRow_kept _ s0 s1 s2 s3 s4 s5 s6 s7 s8 s9 s10 s11 si ei hs hf
                    h0 h1 h6 h7)]
                rw [List.foldl_cons]
                have hfst : prevRep st'.currKey = some (hashKeyOf s0) := by
                  rw [hck']
                  rfl
                have hstep : perKeyStep k
                    (prevRep st0.currKey, dictFind st0.ipDict (DKey.strKey k))
                    (hashKeyOf s0, mkRec s2 s3 s4 s5 s6 s7 s8 s9 s10 s11 si ei) =
                    (prevRep st'.currKey, dictFind st'.ipDict (DKey.strKey k)) := by
                  unfold perKeyStep
                  by_cases hkk : hashKeyOf s0 = k
                  · subst hkk
                    rw [if_pos rfl, hfst, hfind']
                    by_cases hcase : DKey.strKey (hashKeyOf s0) = st0.currKey
                    · rw [if_pos hcase, if_pos ((prevRep_some st0.currKey (hashKeyOf s0)).mp hcase)]
                    · rw [if_neg hcase,
                        if_neg (fun hsome => hcase ((prevRep_some st0.currKey (hashKeyOf s0)).mpr hsome))]
                  · rw [if_neg hkk, hfst,
                      hother' (DKey.strKey k) (fun he => hkk (by injection he with h'; rw [h']))]
                rw [hstep]
                exact hres.2 k

theorem loadRow_wrong_fields (st : LoadState) (line : List PyStr)
    (h : line.length ≠ 12) : loadRow st line = Except.ok st := by
  by_cases hs : skipRow line
  · exact loadRow_skip st line hs
  · exact loadRow_malformed st line hs (fields12_none line h)

/-- A twelve-field row whose latitude field fails float conversion. -/
def rowBadFloat : List PyStr :=
  ["1".data, "2".data, "US".data, "USA".data, "CA".data, "SF".data,
   "xx".data, "0.0".data, "z".data, "t".data, "p".data, "q".data]

/-- A well-formed row (all conversions succeed). -/
def rowGoodA : List PyStr :=
  ["3".data, "4".data, "FR".data, "France".data, "ID".data, "Paris".data,
   "1.5".data, "2.5".data, "y".data, "u".data, "r".data, "s".data]

/-- Claim C6 counterexample: a CSV with one row whose latitude field does
not convert, followed by a well-formed row, does not load with the bad
row skipped — the uncaught ValueError of float() aborts the whole load,
so the well-formed row is not queryable. -/
theorem loader_aborts_on_conversion_error :
    load [rowBadFloat, rowGoodA] = Except.error PyErr.valueError := rfl

/-- Claim C6 amended: only a wrong-field-count row is skipped with the
load continuing (the unpack ValueError is caught); a row whose
startIp/endIp int conversion or lat/lon float conversion fails raises an
uncaught ValueError that aborts the load. -/
theorem row_fault_tolerance_amended :
    (∀ (st : LoadState) (line : List PyStr), line.length ≠ 12 →
      loadRow st line = Except.ok st) ∧
    (∀ (st : LoadState) (line : List PyStr) (ls : List (List PyStr)), line.length ≠ 12 →
      loadRows st (line :: ls) = loadRows st ls) ∧
    (∀ (st : LoadState) (s0 s1 s2 s3 s4 s5 s6 s7 s8 s9 s10 s11 : PyStr),
      ¬skipRow [s0, s1, s2, s3, s4, s5, s6, s7, s8, s9, s10, s11] →
      (DKey.strKey (hashKeyOf s0) = st.currKey →
        (dictFind st.ipDict (DKey.strKey (hashKeyOf s0))).isSome = true) →
      (pyInt (pyStripQuotes s0) = none ∨ pyInt (pyStripQuotes s1) = none ∨
        floatOk s6 = false ∨ floatOk s7 = false) →
      loadRow st [s0, s1, s2, s3, s4, s5, s6, s7, s8, s9, s10, s11] =
        Except.error PyErr.valueError) := by
  refine ⟨loadRow_wrong_fields, ?_, loadRow_conv_fail⟩
  intro st line ls h
  exact loadRows_cons_ok st line ls st (loadRow_wrong_fields st line h)

theorem row_fault_tolerance_amended_witness :
    loadRow initState ["a".data, "b".data] = Except.ok initState ∧
    loadRows initState (["a".data, "b".data] :: [rowGoodA]) = loadRows initState [rowGoodA] ∧
    loadRow initState rowBadFloat = Except.error PyErr.valueError := by
  refine ⟨?_, ?_, ?_⟩
  · exact row_fault_tolerance_amended.1 initState ["a".data, "b".data] (by decide)
  · exact row_fault_tolerance_amended.2.1 initState ["a".data, "b".data] [rowGoodA] (by decide)
  · exact row_fault_tolerance_amended.2.2 initState
      "1".data "2".data "US".data "USA".data "CA".data "SF".data
      "xx".data "0.0".data "z".data "t".data "p".data "q".data
      (by decide) (fun he => absurd he (by decide))
      (Or.inr (Or.inr (Or.inl rfl)))

/-- A twelve-field row whose line begins with a hash mark but whose first
field is not exactly the one-character hash string. -/
def rowHashNum : List PyStr :=
  ["#1".data, "2".data, "US".data, "USA".data, "CA".data, "SF".data,
   "1.0".data, "2.0".data, "z".data, "t".data, "p".data, "q".data]

/-- Claim C9 counterexample: a line beginning with the hash character is
not skipped unless its first field is exactly that character; here a
twelve-field row starting with hash-1 reaches the int conversion, whose
uncaught ValueError aborts the load, so the following well-formed row
contributes no record. -/
theorem hash_prefixed_row_aborts_load :
    load [rowHashNum, rowGoodA] = Except.error PyErr.valueError := rfl

/-- Claim C9 amended: the loader skips empty rows, rows whose first field
is exactly the hash string, and rows whose first field is the string 0;
every other well-formed row (twelve fields, conversions succeed) appends
exactly one record to its bucket, leaving all other buckets unchanged. -/
theorem loader_skip_rules_amended :
    (∀ st : LoadState, loadRow st [] = Except.ok st) ∧
    (∀ (st : LoadState) (line : List PyStr), line.head? = some ['#'] →
      loadRow st line = Except.ok st) ∧
    (∀ (st : LoadState) (line : List PyStr), line.head? = some ['0'] →
      loadRow st line = Except.ok st) ∧
    (∀ (st : LoadState) (s0 s1 s2 s3 s4 s5 s6 s7 s8 s9 s10 s11 : PyStr) (si ei : Int),
      ¬skipRow [s0, s1, s2, s3, s4, s5, s6, s7, s8, s9, s10, s11] →
      pyInt (pyStripQuotes s0) = some si → pyInt (pyStripQuotes s1) = some ei →
      floatOk s6 = true → floatOk s7 = true →
      (DKey.strKey (hashKeyOf s0) = st.currKey →
        (dictFind st.ipDict (DKey.strKey (hashKeyOf s0))).isSome = true) →
      ∃ st', loadRow st [s0, s1, s2, s3, s4, s5, s6, s7, s8, s9, s10, s11] = Except.ok st' ∧
        dictFind st'.ipDict (DKey.strKey (hashKeyOf s0)) = some
          ((if DKey.strKey (hashKeyOf s0) = st.currKey then
              (dictFind st.ipDict (DKey.strKey (hashKeyOf s0))).getD []
            else []) ++ [mkRec s2 s3 s4 s5 s6 s7 s8 s9 s10 s11 si ei]) ∧
        (∀ q, ¬(q = DKey.strKey (hashKeyOf s0)) →
          dictFind st'.ipDict q = dictFind st.ipDict q)) := by
  refine ⟨?_, ?_, ?_, ?_⟩
  · intro st
    exact loadRow_skip st [] (Or.inl rfl)
  · intro st line h
    exact loadRow_skip st line (Or.inr (Or.inl h))
  · intro st line h
    exact loadRow_skip st line (Or.inr (Or.inr h))
  · intro st s0 s1 s2 s3 s4 s5 s6 s7 s8 s9 s10 s11 si ei hns h0 h1 h6 h7 hcur
    obtain ⟨st', hlr, _, hfind, hother⟩ :=
      loadRow_kept st s0 s1 s2 s3 s4 s5 s6 s7 s8 s9 s10 s11 si ei hns h0 h1 h6 h7 hcur
    exact ⟨st', hlr, hfind, hother⟩

theorem loader_skip_rules_amended_witness :
    loadRow initState [] = Except.ok initState ∧
    loadRow initState [['#'], "x".data] = Except.ok initState ∧
    loadRow initState [['0'], "x".data] = Except.ok initState ∧
    (∃ st', loadRow initState rowGoodA = Except.ok st' ∧
      dictFind st'.ipDict (DKey.strKey (hashKeyOf "3".data)) = some
        ((if DKey.strKey (hashKeyOf "3".data) = initState.currKey then
            (dictFind initState.ipDict (DKey.strKey (hashKeyOf "3".data))).getD []
          else []) ++
          [mkRec "FR".data "France".data "ID".data "Paris".data "1.5".data "2.5".data
            "y".data "u".data "r".data "s".data 3 4]) ∧
      (∀ q, ¬(q = DKey.strKey (hashKeyOf "3".data)) →
        dictFind st'.ipDict q = dictFind initState.ipDict q)) := by
  refine ⟨?_, ?_, ?_, ?_⟩
  · exact loader_skip_rules_amended.1 initState
  · exact loader_skip_rules_amended.2.1 initState [['#'], "x".data] rfl
  · exact loader_skip_rules_amended.2.2.1 initState [['0'], "x".data] rfl
  · exact loader_skip_rules_amended.2.2.2 initState
      "3".data "4".data "FR".data "France".data "ID".data "Paris".data
      "1.5".data "2.5".data "y".data "u".data "r".data "s".data 3 4
      (by decide) rfl rfl rfl rfl (fun he => absurd he (by decide))

/-- Claim C10: (a) a kept row whose hash key differs from the immediately
preceding kept row's key (currKey) gets its bucket reassigned to a fresh
list holding just its record, discarding any earlier content of that
bucket; (b) consequently, after a successful load every string-keyed
bucket holds exactly what the perKeyStep fold over the kept rows
predicts: the records of the last contiguous run of kept rows with that
key, and no bucket exists for a key no kept row has. -/
theorem bucket_reset_on_new_key :
    (∀ (st : LoadState) (s0 s1 s2 s3 s4 s5 s6 s7 s8 s9 s10 s11 : PyStr) (si ei : Int),
      ¬skipRow [s0, s1, s2, s3, s4, s5, s6, s7, s8, s9, s10, s11] →
      pyInt (pyStripQuotes s0) = some si → pyInt (pyStripQuotes s1) = some ei →
      floatOk s6 = true → floatOk s7 = true →
      ¬(DKey.strKey (hashKeyOf s0) = st.currKey) →
      ∃ st', loadRow st [s0, s1, s2, s3, s4, s5, s6, s7, s8, s9, s10, s11] = Except.ok st' ∧
        dictFind st'.ipDict (DKey.strKey (hashKeyOf s0)) =
          some [mkRec s2 s3 s4 s5 s6 s7 s8 s9 s10 s11 si ei]) ∧
    (∀ (rows : List (List PyStr)) (st1 : LoadState), load rows = Except.ok st1 →
      ∀ k : PyStr, dictFind st1.ipDict (DKey.strKey k) = lastRunBucket k (keptList rows)) := by
  constructor
  · intro st s0 s1 s2 s3 s4 s5 s6 s7 s8 s9 s10 s11 si ei hns h0 h1 h6 h7 hck
    obtain ⟨st', hlr, _, hfind, _⟩ :=
      loadRow_kept st s0 s1 s2 s3 s4 s5 s6 s7 s8 s9 s10 s11 si ei hns h0 h1 h6 h7
        (fun he => absurd he hck)
    refine ⟨st', hlr, ?_⟩
    rw [hfind, if_neg hck]
    rfl
  · intro rows st1 hload k
    have hres := loadRows_perKey rows initState st1 rfl hload
    have h2 := hres.2 k
    have hinit : (prevRep initState.currKey,
        dictFind initState.ipDict (DKey.strKey k)) =
        ((none : Option PyStr), (none : Option (List RangeRec))) := rfl
    rw [hinit] at h2
    unfold lastRunBucket
    exact congrArg Prod.snd h2

/-- Rows for the C10 witness: two runs with bucket key 0000 separated by a
run with key 0002; the final 0000 bucket holds only the third row's
record. -/
def rowR1 : List PyStr :=
  ["1".data, "2".data, "AA".data, "Aland".data, "R".data, "C".data,
   "1.0".data, "2.0".data, "z".data, "t".data, "p".data, "q".data]

def rowR2 : List PyStr :=
  ["2000000".data, "2000005".data, "BB".data, "Bland".data, "S".data, "D".data,
   "3.0".data, "4.0".data, "y".data, "u".data, "r".data, "s".data]

def rowR3 : List PyStr :=
  ["5".data, "6".data, "AA".data, "Aland".data, "R".data, "C".data,
   "1.0".data, "2.0".data, "z".data, "t".data, "p".data, "q".data]

/-- The state the loader reaches on the three C10 witness rows. -/
def stC10 : LoadState :=
  ⟨DKey.strKey "0000".data,
   [(DKey.intKey 0, []),
    (DKey.strKey "0000".data,
     [⟨5, 6, "AA".data, "Aland".data, "R".data, "C".data, "1.0".data, "2.0".data,
       "z".data, "t".data, "p".data, "q".data⟩]),
    (DKey.strKey "0002".data,
     [⟨2000000, 2000005, "BB".data, "Bland".data, "S".data, "D".data, "3.0".data,
       "4.0".data, "y".data, "u".data, "r".data, "s".data⟩])],
   [("AA".data, ("AA".data, "Aland".data, "R".data, "C".data)),
    ("BB".data, ("BB".data, "Bland".data, "S".data, "D".data))]⟩

theorem bucket_reset_on_new_key_witness :
    load [rowR1, rowR2, rowR3] = Except.ok stC10 ∧
    dictFind stC10.ipDict (DKey.strKey "0000".data) =
      lastRunBucket "0000".data (keptList [rowR1, rowR2, rowR3]) ∧
    dictFind stC10.ipDict (DKey.strKey "0000".data) =
      some [⟨5, 6, "AA".data, "Aland".data, "R".data, "C".data, "1.0".data, "2.0".data,
        "z".data, "t".data, "p".data, "q".data⟩] ∧
    (∃ st', loadRow stC10
        ["2000001".data, "2000002".data, "BB".data, "Bland".data, "S".data, "D".data,
         "3.0".data, "4.0".data, "y".data, "u".data, "r".data, "s".data] = Except.ok st' ∧
      dictFind st'.ipDict (DKey.strKey (hashKeyOf "2000001".data)) =
        some [mkRec "BB".data "Bland".data "S".data "D".data "3.0".data "4.0".data
          "y".data "u".data "r".data "s".data 2000001 2000002]) := by
  refine ⟨rfl, ?_, rfl, ?_⟩
  · exact bucket_reset_on_new_key.2 [rowR1, rowR2, rowR3] stC10 rfl "0000".data
  · exact bucket_reset_on_new_key.1 stC10
      "2000001".data "2000002".data "BB".data "Bland".data "S".data "D".data
      "3.0".data "4.0".data "y".data "u".data "r".data "s".data 2000001 2000002
      (by decide) rfl rfl rfl rfl (by decide)

end IpFullLocation
